import Mathlib

/-!
Shallow embedding of the booking arbitration engine of the
Campus-ResourceManager backend (src/controllers/bookingController.js,
src/utils/prioritySystem.js, src/models/booking.js, src/models/approvalLog.js).

Timestamps are modelled as integers (milliseconds, as JS `Date.getTime()`).
The MongoDB collection is modelled as an insertion-ordered list of bookings;
`Booking.create` appends, `findById` is `List.find?` on the id, and
`findByIdAndUpdate` / `save` are id-directed in-place updates.  The impure
`new Date()` read inside the controllers and inside `calculatePriorityScore`
is made explicit as a `now` parameter.
-/

/-- The `status` enum of the booking schema: `["pending","approved","rejected"]`. -/
inductive Status where
  | pending
  | approved
  | rejected
  deriving DecidableEq

/-- The status filter used by `hasConflictForHall`:
`status: { $in: ["pending", "approved"] }`. -/
def Status.isLive : Status → Bool
  | .pending => true
  | .approved => true
  | .rejected => false

/-- The string stored for a status in an approval-log document. -/
def statusStr : Status → String
  | .pending => "pending"
  | .approved => "approved"
  | .rejected => "rejected"

/-- The `details` breakdown object returned by `calculatePriorityScore`. -/
structure ScoreDetails where
  categoryScore : Int
  advanceBookingScore : Int
  attendanceScore : Int
  totalScore : Int
  deriving DecidableEq

/-- The `{ totalScore, details }` result of `calculatePriorityScore`. -/
structure PriorityResult where
  totalScore : Int
  details : ScoreDetails
  deriving DecidableEq

/-- Milliseconds per day: the `1000 * 60 * 60 * 24` of prioritySystem.js. -/
def msPerDay : Int := 86400000

/-- JS `Math.floor(a / b)` on integer arguments (b > 0): floor division. -/
def jsFloorDiv (a b : Int) : Int := a.fdiv b

/-- JS `Math.ceil(a / b)` on integer arguments (b > 0), via the identity
`ceil (a/b) = floor ((a + b - 1) / b)`. -/
def jsCeilDiv (a b : Int) : Int := (a + b - 1).fdiv b

/-- The `switch (eventCategory)` of `calculatePriorityScore`:
Institutional 100, Departmental 50, Student 20, default 10. -/
def categoryScoreOf (eventCategory : String) : Int :=
  if eventCategory = "Institutional" then 100
  else if eventCategory = "Departmental" then 50
  else if eventCategory = "Student" then 20
  else 10

/-- `calculatePriorityScore(eventCategory, bookingDate, eventDate,
expectedAttendance)` of src/utils/prioritySystem.js.  The source ignores its
`bookingDate` parameter and reads `new Date()` internally; that impure read is
the explicit `now` argument here.  `diffTime = Math.abs(event - now)`,
`diffDays = Math.ceil(diffTime / 86400000)`, `weeksAdvance =
Math.floor(diffDays / 7)`, advance capped at 25, attendance bonus
`Math.min(Math.floor(attendance / 10), 20)`. -/
def calculatePriorityScore (eventCategory : String) (bookingDate : Int)
    (eventDate : Int) (expectedAttendance : Int) (now : Int) : PriorityResult :=
  let categoryScore := categoryScoreOf eventCategory
  let diffTime := |eventDate - now|
  let diffDays := jsCeilDiv diffTime msPerDay
  let weeksAdvance := jsFloorDiv diffDays 7
  let advanceBookingScore := min (weeksAdvance * 5) 25
  let attendance := expectedAttendance
  let attendanceScore := min (jsFloorDiv attendance 10) 20
  let totalScore := categoryScore + advanceBookingScore + attendanceScore
  { totalScore := totalScore,
    details :=
      { categoryScore := categoryScore,
        advanceBookingScore := advanceBookingScore,
        attendanceScore := attendanceScore,
        totalScore := totalScore } }

/-- The recommendation object produced by `compareBookings`. -/
structure Recommendation where
  recommendation : String
  reason : String
  shouldOverride : Bool
  deriving DecidableEq

/-- `compareBookings(newBooking, existingBooking)` of prioritySystem.js,
taking the two `priorityScore` fields its callers populate. -/
def compareBookings (newScore existingScore : Int) : Recommendation :=
  let scoreDiff := newScore - existingScore
  if scoreDiff > 30 then
    { recommendation := "Strongly Approve New",
      reason := "New request has significantly higher priority (" ++
        toString newScore ++ " vs " ++ toString existingScore ++ ").",
      shouldOverride := true }
  else if scoreDiff > 0 then
    { recommendation := "Approve New (Review Required)",
      reason := "New request has slightly higher priority (" ++
        toString newScore ++ " vs " ++ toString existingScore ++ ").",
      shouldOverride := false }
  else
    { recommendation := "Reject New",
      reason := "Existing booking has higher or equal priority (" ++
        toString existingScore ++ " vs " ++ toString newScore ++ ").",
      shouldOverride := false }

/-- A document of the `Booking` collection (src/models/booking.js), with the
fields the arbitration engine reads and writes. -/
structure Booking where
  id : Nat
  coordinator : Nat
  facultyName : String
  eventTitle : String
  eventCategory : String
  expectedAttendance : Int
  priorityScore : Int
  priorityDetails : ScoreDetails
  hall : String
  startTime : Int
  endTime : Int
  status : Status
  rejectionReason : String
  isConflict : Bool
  conflictReason : String
  overriddenBooking : Option Nat
  deriving DecidableEq

/-- A document of the `ApprovalLog` collection (src/models/approvalLog.js). -/
structure LogEntry where
  booking : Nat
  action : String
  performedBy : Nat
  previousStatus : String
  newStatus : String
  remarks : String
  snapScore : Int
  snapCategory : String
  snapDetails : Option ScoreDetails
  deriving DecidableEq

/-- The persistent store: the booking collection in insertion (creation)
order, the append-only approval log, and the id counter standing in for
ObjectId generation. -/
structure DB where
  bookings : List Booking
  logs : List LogEntry
  nextId : Nat
  deriving DecidableEq

/-- The empty store. -/
def emptyDB : DB := { bookings := [], logs := [], nextId := 0 }

/-- The Mongo query of `hasConflictForHall`: same hall, live status,
`startTime: { $lt: endTime }`, `endTime: { $gt: startTime }`, and the optional
`_id: { $ne: excludeBookingId }`. -/
def matchesConflictQuery (hall : String) (startT endT : Int)
    (excl : Option Nat) (b : Booking) : Bool :=
  decide (b.hall = hall) && b.status.isLive &&
    decide (b.startTime < endT) && decide (b.endTime > startT) &&
    (match excl with
     | some x => decide (b.id ≠ x)
     | none => true)

/-- `findOne(query).sort({ priorityScore: -1 })`: the first booking of
maximal `priorityScore`, scanning the collection in insertion order (an
element is replaced only by a strictly higher score, so the earliest-created
booking wins among equal scores). -/
def pickHighest : List Booking → Option Booking
  | [] => none
  | b :: rest =>
    match pickHighest rest with
    | none => some b
    | some m => if m.priorityScore > b.priorityScore then some m else some b

/-- `hasConflictForHall(hall, startTime, endTime, excludeBookingId)` of
bookingController.js: the highest-priority live booking for the hall whose
window overlaps the queried window, or `none`. -/
def hasConflictForHall (db : DB) (hall : String) (startT endT : Int)
    (excl : Option Nat) : Option Booking :=
  pickHighest (db.bookings.filter (matchesConflictQuery hall startT endT excl))

/-- `findById` on the booking collection. -/
def findBooking (db : DB) (i : Nat) : Option Booking :=
  db.bookings.find? (fun x => decide (x.id = i))

/-- An id-directed in-place update, as `findByIdAndUpdate` / `save` perform
on the collection; document order is unchanged. -/
def updateBooking (tid : Nat) (f : Booking → Booking)
    (l : List Booking) : List Booking :=
  l.map (fun b => if b.id = tid then f b else b)

/-- The body of a `POST /api/bookings` request, as destructured by
`createBooking`.  Missing string fields are the empty string (JS falsiness);
`parsedStart`/`parsedEnd` are the results of
`new Date(date + "T" + time).getTime()`, with `none` standing for `NaN`. -/
structure CreateRequest where
  facultyName : String
  eventTitle : String
  hall : String
  date : String
  startTimeStr : String
  endTimeStr : String
  eventCategory : String
  expectedAttendance : Int
  overrideRequested : Bool
  conflictReason : String
  parsedStart : Option Int
  parsedEnd : Option Int
  deriving DecidableEq

/-- The required-fields test of `createBooking`:
`!facultyName || !eventTitle || !hall || !date || !startTime || !endTime`. -/
def hasMissingCreateField (req : CreateRequest) : Bool :=
  decide (req.facultyName = "") || decide (req.eventTitle = "") ||
    decide (req.hall = "") || decide (req.date = "") ||
    decide (req.startTimeStr = "") || decide (req.endTimeStr = "")

/-- The distinguishable outcomes of `createBooking`:
the four 400 validation responses, the 409 conflict response, and the 201
created response. -/
inductive CreateResult where
  | missingFields
  | invalidFormat
  | invalidWindow
  | pastWindow
  | conflictFound (existing : Booking) (analysis : Recommendation)
  | created (b : Booking)
  deriving DecidableEq

/-- Discriminator for the 201 outcome. -/
def CreateResult.isCreatedB : CreateResult → Bool
  | .created _ => true
  | _ => false

/-- The new document built by `Booking.create` in `createBooking`. -/
def mkBooking (uid : Nat) (req : CreateRequest) (pr : PriorityResult)
    (s e : Int) (newId : Nat) (conflict : Option Booking) : Booking :=
  { id := newId,
    coordinator := uid,
    facultyName := req.facultyName,
    eventTitle := req.eventTitle,
    eventCategory := req.eventCategory,
    expectedAttendance := req.expectedAttendance,
    priorityScore := pr.totalScore,
    priorityDetails := pr.details,
    hall := req.hall,
    startTime := s,
    endTime := e,
    status := .pending,
    rejectionReason := "",
    isConflict := conflict.isSome,
    conflictReason := if conflict.isSome then req.conflictReason else "",
    overriddenBooking :=
      match conflict with
      | some cb => some cb.id
      | none => none }

/-- `createBooking` of bookingController.js: required-field check, date
format check, `endDateTime <= startDateTime` check, `startDateTime < now`
check, priority scoring, conflict detection, and either the 409 conflict
response (no override requested) or creation of a pending booking. -/
def createBooking (now : Int) (uid : Nat) (req : CreateRequest)
    (db : DB) : CreateResult × DB :=
  if hasMissingCreateField req then (.missingFields, db)
  else
    match req.parsedStart, req.parsedEnd with
    | some s, some e =>
      if e ≤ s then (.invalidWindow, db)
      else if s < now then (.pastWindow, db)
      else
        let pr := calculatePriorityScore req.eventCategory now s
          req.expectedAttendance now
        match hasConflictForHall db req.hall s e none with
        | some cb =>
          if req.overrideRequested = false then
            (.conflictFound cb (compareBookings pr.totalScore cb.priorityScore), db)
          else
            let nb := mkBooking uid req pr s e db.nextId (some cb)
            (.created nb,
              { db with bookings := db.bookings ++ [nb], nextId := db.nextId + 1 })
        | none =>
          let nb := mkBooking uid req pr s e db.nextId none
          (.created nb,
            { db with bookings := db.bookings ++ [nb], nextId := db.nextId + 1 })
    | none, _ => (.invalidFormat, db)
    | _, none => (.invalidFormat, db)

/-- The outcomes of `approveBooking`: 404, the duplicate-approval 400, the
re-check 409, and the 200 success. -/
inductive ApproveResult where
  | notFound
  | alreadyApproved
  | conflictRefused
  | approvedOk
  deriving DecidableEq

/-- The update applied to the overridden booking by
`findByIdAndUpdate(booking.overriddenBooking, { status: "rejected",
rejectionReason: "Overridden by higher priority event" })`. -/
def overrideUpd (x : Booking) : Booking :=
  { x with status := .rejected,
           rejectionReason := "Overridden by higher priority event" }

/-- The update applied to the approved booking by `booking.status =
"approved"; booking.rejectionReason = ""; booking.save()`. -/
def approveUpd (x : Booking) : Booking :=
  { x with status := .approved, rejectionReason := "" }

/-- The log document created for the overridden booking: note the hardcoded
`previousStatus: "approved"` and `action: "Rejected"`. -/
def overrideLogEntry (uid oid : Nat) (old : Booking) : LogEntry :=
  { booking := oid,
    action := "Rejected",
    performedBy := uid,
    previousStatus := "approved",
    newStatus := "rejected",
    remarks := "System Auto-Rejection: Overridden by priority booking",
    snapScore := old.priorityScore,
    snapCategory := old.eventCategory,
    snapDetails := none }

/-- The log document created for the approved booking. -/
def approvedLogEntry (uid : Nat) (b : Booking) (remarks : String) : LogEntry :=
  { booking := b.id,
    action := "Approved",
    performedBy := uid,
    previousStatus := statusStr b.status,
    newStatus := "approved",
    remarks := if remarks = "" then "Approved by Admin" else remarks,
    snapScore := b.priorityScore,
    snapCategory := b.eventCategory,
    snapDetails := some b.priorityDetails }

/-- The booking-collection effect of the override branch of `approveBooking`
(`if (booking.isConflict && booking.overriddenBooking)`): the target, when
present, is rejected in place. -/
def overrideTargetBookings (db : DB) (b : Booking) : List Booking :=
  if b.isConflict then
    match b.overriddenBooking with
    | some oid => updateBooking oid overrideUpd db.bookings
    | none => db.bookings
  else db.bookings

/-- The log entries appended by the override branch: one `"Rejected"` entry
when `findByIdAndUpdate` found the target (`if (oldBooking)`), none
otherwise. -/
def overrideLogList (uid : Nat) (db : DB) (b : Booking) : List LogEntry :=
  if b.isConflict then
    match b.overriddenBooking with
    | some oid =>
      match findBooking db oid with
      | some old => [overrideLogEntry uid oid old]
      | none => []
    | none => []
  else []

/-- The mutation part of a successful `approveBooking` (steps after the
guards): reject the override target (if any) with its log entry, then set the
booking approved and append the `"Approved"` log entry.  `previousStatus` of
the approved booking was captured before the update, from the document found
by `findById`. -/
def approveFinish (uid : Nat) (remarks : String) (db : DB) (b : Booking) : DB :=
  { bookings := updateBooking b.id approveUpd (overrideTargetBookings db b),
    logs := (db.logs ++ overrideLogList uid db b) ++ [approvedLogEntry uid b remarks],
    nextId := db.nextId }

/-- `approveBooking` of bookingController.js: 404 when absent, 400 when the
status is already `"approved"`, a conflict re-check (excluding the booking
itself) only when `isConflict` is false, then the override branch and the
approval write with its audit entries. -/
def approveBooking (uid : Nat) (id : Nat) (remarks : String)
    (db : DB) : ApproveResult × DB :=
  match findBooking db id with
  | none => (.notFound, db)
  | some b =>
    if b.status = .approved then (.alreadyApproved, db)
    else if b.isConflict = false then
      match hasConflictForHall db b.hall b.startTime b.endTime (some b.id) with
      | some _ => (.conflictRefused, db)
      | none => (.approvedOk, approveFinish uid remarks db b)
    else (.approvedOk, approveFinish uid remarks db b)

/-- The outcomes of `rejectBooking`. -/
inductive RejectResult where
  | notFound
  | rejectedOk
  deriving DecidableEq

/-- The update applied by `rejectBooking`. -/
def rejectUpd (reason : String) (x : Booking) : Booking :=
  { x with status := .rejected, rejectionReason := reason }

/-- The log document created by `rejectBooking`. -/
def rejectedLogEntry (uid : Nat) (b : Booking) (reason : String) : LogEntry :=
  { booking := b.id,
    action := "Rejected",
    performedBy := uid,
    previousStatus := statusStr b.status,
    newStatus := "rejected",
    remarks := if reason = "" then "Rejected by Admin" else reason,
    snapScore := b.priorityScore,
    snapCategory := b.eventCategory,
    snapDetails := none }

/-- `rejectBooking` of bookingController.js: 404 when absent, otherwise the
booking is set to rejected unconditionally (no status guard) and a
`"Rejected"` log entry is appended. -/
def rejectBooking (uid : Nat) (id : Nat) (reason : String)
    (db : DB) : RejectResult × DB :=
  match findBooking db id with
  | none => (.notFound, db)
  | some b =>
    (.rejectedOk,
      { bookings := updateBooking id (rejectUpd reason) db.bookings,
        logs := db.logs ++ [rejectedLogEntry uid b reason],
        nextId := db.nextId })

/-- One externally invokable operation of the engine. -/
inductive Op where
  | create (now : Int) (uid : Nat) (req : CreateRequest)
  | approve (uid : Nat) (id : Nat) (remarks : String)
  | reject (uid : Nat) (id : Nat) (reason : String)

/-- The store after one operation. -/
def stepOp (db : DB) : Op → DB
  | .create now uid req => (createBooking now uid req db).2
  | .approve uid id remarks => (approveBooking uid id remarks db).2
  | .reject uid id reason => (rejectBooking uid id reason db).2

/-- The store reached from the empty store by a sequence of operations. -/
def runOps (ops : List Op) : DB := ops.foldl stepOp emptyDB

/-- A well-formed request for the window from day 10, 0:00, to day 10,
2:00 (times in ms), for the given hall and category. -/
def mkReq (cat : String) (att : Int) (ovr : Bool) : CreateRequest :=
  { facultyName := "Dr. Rao",
    eventTitle := "Seminar",
    hall := "Seminar Hall",
    date := "1970-01-11",
    startTimeStr := "00:00",
    endTimeStr := "02:00",
    eventCategory := cat,
    expectedAttendance := att,
    overrideRequested := ovr,
    conflictReason := "needed",
    parsedStart := some (10 * 86400000),
    parsedEnd := some (10 * 86400000 + 7200000) }

/-- Submit a Student booking, then two overlapping override submissions:
the second override's conflict target is the Institutional booking (highest
score), leaving the first and third bookings overlapping with no override
link between them. -/
def threeWayTrace : List Op :=
  [ .create 0 1 (mkReq "Student" 0 false),
    .create 0 2 (mkReq "Institutional" 0 true),
    .create 0 3 (mkReq "Student" 0 true) ]

/-- A stored booking with only the fields relevant to conflict checking. -/
def bk0 (i : Nat) (hall : String) (s e score : Int) (st : Status) : Booking :=
  { id := i, coordinator := 0, facultyName := "f", eventTitle := "t",
    eventCategory := "Student", expectedAttendance := 0,
    priorityScore := score, priorityDetails := ⟨0, 0, 0, 0⟩, hall := hall,
    startTime := s, endTime := e, status := st, rejectionReason := "",
    isConflict := false, conflictReason := "", overriddenBooking := none }

/-- A store holding one approved booking on hall H over `[0, 10)`. -/
def oneBookingDB : DB := { bookings := [bk0 0 "H" 0 10 25 .approved], logs := [], nextId := 1 }

/-- The returned booking `b` sits at position `i` in the (creation-ordered)
collection, matches the conflict query, no matching booking has a higher
score, and every matching booking at an earlier position (i.e. created
earlier) has a strictly lower score — so among equal maximal scores the
earliest-created booking is returned. -/
def CanonicalAt (db : DB) (hall : String) (s e : Int) (excl : Option Nat)
    (b : Booking) : Prop :=
  ∃ i, ∃ hi : i < db.bookings.length,
    db.bookings.get ⟨i, hi⟩ = b ∧
    matchesConflictQuery hall s e excl b = true ∧
    ∀ j, ∀ hj : j < db.bookings.length,
      matchesConflictQuery hall s e excl (db.bookings.get ⟨j, hj⟩) = true →
        (db.bookings.get ⟨j, hj⟩).priorityScore ≤ b.priorityScore ∧
        (j < i → (db.bookings.get ⟨j, hj⟩).priorityScore < b.priorityScore)

/-- A store with two equal-score pending bookings overlapping `[0, 10)`. -/
def tieDB : DB :=
  { bookings := [bk0 0 "H" 0 10 25 .pending, bk0 1 "H" 2 8 25 .pending],
    logs := [], nextId := 2 }

/-- Modelled from the spec: the advance-notice bonus exactly as §4.2 words
it — `floor((windowStart − submissionTime) in days / 7) × 5, clamped to
[0, 25]` — as a function of the submission time, for comparison against the
implemented formula. -/
def specAdvanceScore (submissionTime windowStart : Int) : Int :=
  min (max (jsFloorDiv (windowStart - submissionTime) (7 * msPerDay) * 5) 0) 25

/-- Modelled from the spec: the total score as §4.2 words it (category
mapping, spec advance bonus, attendance bonus clamped to [0, 20]). -/
def specScoreTotal (category : String) (submissionTime windowStart att : Int) : Int :=
  categoryScoreOf category + specAdvanceScore submissionTime windowStart +
    min (max (jsFloorDiv att 10) 0) 20

/-- What the implemented scorer actually guarantees. -/
def ScoreBehavior (c : String) (sub start att now : Int) : Prop :=
  (calculatePriorityScore c sub start att now).details.categoryScore =
    (if c = "Institutional" then 100 else if c = "Departmental" then 50
     else if c = "Student" then 20 else 10) ∧
  (calculatePriorityScore c sub start att now).details.advanceBookingScore =
    min (jsFloorDiv (jsCeilDiv |start - now| msPerDay) 7 * 5) 25 ∧
  (0 ≤ (calculatePriorityScore c sub start att now).details.advanceBookingScore ∧
    (calculatePriorityScore c sub start att now).details.advanceBookingScore ≤ 25) ∧
  (calculatePriorityScore c sub start att now).details.attendanceScore =
    min (jsFloorDiv att 10) 20 ∧
  (0 ≤ (calculatePriorityScore c sub start att now).details.attendanceScore ∧
    (calculatePriorityScore c sub start att now).details.attendanceScore ≤ 20) ∧
  (calculatePriorityScore c sub start att now).totalScore =
    (calculatePriorityScore c sub start att now).details.categoryScore +
    (calculatePriorityScore c sub start att now).details.advanceBookingScore +
    (calculatePriorityScore c sub start att now).details.attendanceScore ∧
  (10 ≤ (calculatePriorityScore c sub start att now).totalScore ∧
    (calculatePriorityScore c sub start att now).totalScore ≤ 145) ∧
  calculatePriorityScore c sub start att now = calculatePriorityScore c 0 start att now

/-- The full state reached by approving an override booking whose recorded
target exists. -/
def OverridePost (db : DB) (uid id oid : Nat) (remarks : String)
    (b old : Booking) : Prop :=
  (approveBooking uid id remarks db).1 = .approvedOk ∧
  findBooking (approveBooking uid id remarks db).2 oid =
    some { old with status := .rejected,
                    rejectionReason := "Overridden by higher priority event" } ∧
  findBooking (approveBooking uid id remarks db).2 id =
    some { b with status := .approved, rejectionReason := "" } ∧
  (approveBooking uid id remarks db).2.logs =
    db.logs ++ [overrideLogEntry uid oid old, approvedLogEntry uid b remarks]

/-- An override booking (id 1) recording booking 0 as its target. -/
def ovB : Booking :=
  { id := 1, coordinator := 2, facultyName := "g", eventTitle := "u",
    eventCategory := "Institutional", expectedAttendance := 0,
    priorityScore := 105, priorityDetails := ⟨0, 0, 0, 0⟩, hall := "H",
    startTime := 0, endTime := 10, status := .pending, rejectionReason := "",
    isConflict := true, conflictReason := "big", overriddenBooking := some 0 }

/-- A store with a pending booking 0 and the override booking 1 targeting it. -/
def overrideDB : DB :=
  { bookings := [bk0 0 "H" 0 10 25 .pending, ovB], logs := [], nextId := 2 }

/-- A store where the override target (booking 0) is already rejected. -/
def rejectedTargetDB : DB :=
  { bookings := [bk0 0 "H" 0 10 25 .rejected, ovB], logs := [], nextId := 2 }

/-- The spec's invariant, as stated: two live (pending/approved) bookings on
one hall may have overlapping windows only when one records the other as its
override target. -/
def overlapClaimHolds (bs : List Booking) : Bool :=
  bs.all (fun b1 => bs.all (fun b2 =>
    !(decide (¬ b1.id = b2.id) && decide (b1.hall = b2.hall) &&
      b1.status.isLive && b2.status.isLive &&
      decide (b1.startTime < b2.endTime) && decide (b2.startTime < b1.endTime)) ||
    (decide (b1.overriddenBooking = some b2.id) ||
      decide (b2.overriddenBooking = some b1.id))))

/-- The invariant the code actually maintains: two distinct live bookings on
one hall with overlapping windows always include at least one that was
created with the conflict flag set. -/
def SafeOverlap (db : DB) : Prop :=
  ∀ b1 ∈ db.bookings, ∀ b2 ∈ db.bookings,
    b1.id ≠ b2.id → b1.hall = b2.hall →
    b1.status.isLive = true → b2.status.isLive = true →
    b1.startTime < b2.endTime → b2.startTime < b1.endTime →
    (b1.isConflict = true ∨ b2.isConflict = true)

/-- Every stored id is below the id counter. -/
def IdsBelow (db : DB) : Prop := ∀ b ∈ db.bookings, b.id < db.nextId

/-- Stored ids are pairwise distinct. -/
def IdsDistinct (db : DB) : Prop :=
  db.bookings.Pairwise (fun a b => a.id ≠ b.id)

/-- The inductive store invariant. -/
def StoreInv (db : DB) : Prop := IdsBelow db ∧ IdsDistinct db ∧ SafeOverlap db

/-- A request missing a required field. -/
def missingReq : CreateRequest := { mkReq "Student" 0 false with facultyName := "" }

/-- A request whose date/time fails to parse. -/
def badFormatReq : CreateRequest := { mkReq "Student" 0 false with parsedStart := none }

/-- A request with end before start. -/
def badWindowReq : CreateRequest :=
  { mkReq "Student" 0 false with parsedStart := some 20, parsedEnd := some 10 }

/-! ## Basic lemmas about the conflict query -/

lemma isLive_iff (s : Status) :
    s.isLive = true ↔ (s = .pending ∨ s = .approved) := by
  cases s <;> decide

lemma exclOk_iff (excl : Option Nat) (b : Booking) :
    (match excl with
     | some x => decide (b.id ≠ x)
     | none => true) = true ↔ (∀ x, excl = some x → b.id ≠ x) := by
  cases excl with
  | none => simp
  | some x => simp

lemma matches_iff (hall : String) (s e : Int) (excl : Option Nat) (b : Booking) :
    matchesConflictQuery hall s e excl b = true ↔
      (b.hall = hall ∧ (b.status = .pending ∨ b.status = .approved) ∧
        b.startTime < e ∧ s < b.endTime ∧ (∀ x, excl = some x → b.id ≠ x)) := by
  unfold matchesConflictQuery
  rw [Bool.and_eq_true, Bool.and_eq_true, Bool.and_eq_true, Bool.and_eq_true]
  rw [exclOk_iff, isLive_iff]
  simp [and_assoc, gt_iff_lt]

lemma pickHighest_eq_none (l : List Booking) :
    pickHighest l = none ↔ l = [] := by
  cases l with
  | nil => simp [pickHighest]
  | cons b rest =>
    simp only [pickHighest]
    cases pickHighest rest with
    | none => simp
    | some m =>
      by_cases h : m.priorityScore > b.priorityScore <;> simp [h]

lemma pickHighest_mem {l : List Booking} {b : Booking}
    (h : pickHighest l = some b) : b ∈ l := by
  induction l with
  | nil => simp [pickHighest] at h
  | cons x rest ih =>
    simp only [pickHighest] at h
    cases hr : pickHighest rest with
    | none => rw [hr] at h; simp at h; simp [h]
    | some m =>
      rw [hr] at h
      by_cases hc : m.priorityScore > x.priorityScore
      · simp [hc] at h
        exact List.mem_cons_of_mem x (ih (h ▸ hr))
      · simp [hc] at h
        simp [h]

lemma pickHighest_filter_spec (p : Booking → Bool) :
    ∀ (l : List Booking) (b : Booking), pickHighest (l.filter p) = some b →
      ∃ i, ∃ hi : i < l.length,
        l.get ⟨i, hi⟩ = b ∧ p b = true ∧
        ∀ j, ∀ hj : j < l.length, p (l.get ⟨j, hj⟩) = true →
          (l.get ⟨j, hj⟩).priorityScore ≤ b.priorityScore ∧
          (j < i → (l.get ⟨j, hj⟩).priorityScore < b.priorityScore) := by
  intro l
  induction l with
  | nil => intro b h; simp [pickHighest] at h
  | cons x rest ih =>
    intro b h
    by_cases hp : p x = true
    · rw [List.filter_cons_of_pos hp] at h
      simp only [pickHighest] at h
      cases hr : pickHighest (rest.filter p) with
      | none =>
        rw [hr] at h
        simp only [Option.some.injEq] at h
        subst h
        have hnil : rest.filter p = [] := (pickHighest_eq_none _).mp hr
        have hnone : ∀ y ∈ rest, ¬ p y = true := List.filter_eq_nil_iff.mp hnil
        refine ⟨0, Nat.succ_pos _, rfl, hp, ?_⟩
        intro j hj hpj
        cases j with
        | zero => exact ⟨le_refl _, fun hlt => absurd hlt (Nat.lt_irrefl 0)⟩
        | succ k =>
          exact absurd hpj (hnone _ (List.get_mem rest _ _))
      | some m =>
        rw [hr] at h
        by_cases hc : m.priorityScore > x.priorityScore
        · simp only [hc, if_true, Option.some.injEq] at h
          subst h
          obtain ⟨i, hi, hget, hpb, hmax⟩ := ih m hr
          refine ⟨i + 1, Nat.succ_lt_succ hi, hget, hpb, ?_⟩
          intro j hj hpj
          cases j with
          | zero =>
            exact ⟨le_of_lt hc, fun _ => hc⟩
          | succ k =>
            have hk : k < rest.length := Nat.lt_of_succ_lt_succ hj
            have := hmax k hk hpj
            exact ⟨this.1, fun hlt => this.2 (Nat.lt_of_succ_lt_succ hlt)⟩
        · simp only [hc, if_false, Option.some.injEq] at h
          subst h
          obtain ⟨i, hi, hget, hpm, hmax⟩ := ih m hr
          refine ⟨0, Nat.succ_pos _, rfl, hp, ?_⟩
          intro j hj hpj
          cases j with
          | zero => exact ⟨le_refl _, fun hlt => absurd hlt (Nat.lt_irrefl 0)⟩
          | succ k =>
            have hk : k < rest.length := Nat.lt_of_succ_lt_succ hj
            have hle := (hmax k hk hpj).1
            have hmx : m.priorityScore ≤ x.priorityScore := le_of_not_lt hc
            exact ⟨le_trans hle hmx,
              fun hlt => absurd hlt (Nat.not_lt_zero _)⟩
    · rw [List.filter_cons_of_neg hp] at h
      obtain ⟨i, hi, hget, hpb, hmax⟩ := ih b h
      refine ⟨i + 1, Nat.succ_lt_succ hi, hget, hpb, ?_⟩
      intro j hj hpj
      cases j with
      | zero => exact absurd hpj hp
      | succ k =>
        have hk : k < rest.length := Nat.lt_of_succ_lt_succ hj
        have := hmax k hk hpj
        exact ⟨this.1, fun hlt => this.2 (Nat.lt_of_succ_lt_succ hlt)⟩

/-! ## Claim C2: the overlap predicate of the conflict checker -/

/-- C2: `hasConflictForHall` reports a conflict for a queried window
`[s, e)` iff some stored booking on the same hall with status pending or
approved satisfies `b.start < e ∧ s < b.end` (half-open overlap; touching
boundaries do not conflict), excluded ids not considered. -/
theorem c2_overlap_iff (db : DB) (hall : String) (s e : Int) (excl : Option Nat) :
    (hasConflictForHall db hall s e excl).isSome = true ↔
      ∃ b, b ∈ db.bookings ∧ b.hall = hall ∧
        (b.status = .pending ∨ b.status = .approved) ∧
        b.startTime < e ∧ s < b.endTime ∧
        (∀ x, excl = some x → b.id ≠ x) := by
  unfold hasConflictForHall
  constructor
  · intro h
    obtain ⟨b, hb⟩ := Option.isSome_iff_exists.mp h
    have hmem := pickHighest_mem hb
    rw [List.mem_filter] at hmem
    exact ⟨b, hmem.1, (matches_iff hall s e excl b).mp hmem.2⟩
  · rintro ⟨b, hmem, hrest⟩
    have hb : b ∈ db.bookings.filter (matchesConflictQuery hall s e excl) :=
      List.mem_filter.mpr ⟨hmem, (matches_iff hall s e excl b).mpr hrest⟩
    have hne : pickHighest (db.bookings.filter (matchesConflictQuery hall s e excl)) ≠ none :=
      fun hcontra => List.ne_nil_of_mem hb ((pickHighest_eq_none _).mp hcontra)
    exact Option.ne_none_iff_isSome.mp hne

/-- Witness for C2 at a concrete store and query. -/
theorem c2_overlap_iff_witness :
    ∃ b, b ∈ oneBookingDB.bookings ∧ b.hall = "H" ∧
      (b.status = Status.pending ∨ b.status = Status.approved) ∧
      b.startTime < 12 ∧ (5 : Int) < b.endTime ∧
      (∀ x, (none : Option Nat) = some x → b.id ≠ x) :=
  (c2_overlap_iff oneBookingDB "H" 5 12 none).mp (by decide)

/-! ## Claim C3: canonical conflict selection -/

/-- C3: when `hasConflictForHall` returns a booking, it is an overlapping
live booking of maximal priority score, and the earliest-created one among
those of maximal score.  (The embedding models `findOne` + `sort` as a
stable scan of the insertion-ordered collection.) -/
theorem c3_canonical (db : DB) (hall : String) (s e : Int) (excl : Option Nat)
    (b : Booking) (h : hasConflictForHall db hall s e excl = some b) :
    CanonicalAt db hall s e excl b :=
  pickHighest_filter_spec (matchesConflictQuery hall s e excl) db.bookings b h

/-- Witness for C3: with two equal-score conflicts the earlier-created one
(id 0) is returned. -/
theorem c3_canonical_witness :
    hasConflictForHall tieDB "H" 0 10 none = some (bk0 0 "H" 0 10 25 .pending) ∧
      CanonicalAt tieDB "H" 0 10 none (bk0 0 "H" 0 10 25 .pending) :=
  ⟨by decide, c3_canonical tieDB "H" 0 10 none _ (by decide)⟩

/-! ## Claim C4: the priority score formulas -/

/-- The implemented score as one closed form. -/
lemma calc_breakdown (c : String) (sub start att now : Int) :
    calculatePriorityScore c sub start att now =
      { totalScore := categoryScoreOf c +
          min (jsFloorDiv (jsCeilDiv |start - now| msPerDay) 7 * 5) 25 +
          min (jsFloorDiv att 10) 20,
        details :=
          { categoryScore := categoryScoreOf c,
            advanceBookingScore :=
              min (jsFloorDiv (jsCeilDiv |start - now| msPerDay) 7 * 5) 25,
            attendanceScore := min (jsFloorDiv att 10) 20,
            totalScore := categoryScoreOf c +
              min (jsFloorDiv (jsCeilDiv |start - now| msPerDay) 7 * 5) 25 +
              min (jsFloorDiv att 10) 20 } } := rfl

/-- C4 counterexample: with six days and one hour of advance notice,
evaluated at the submission instant, the code awards 5 advance points
(it takes the ceiling of the day difference before dividing by 7), while the
spec formula awards 0 — the totals differ (25 vs 20). -/
theorem c4_score_counterexample :
    (calculatePriorityScore "Student" 0 (6 * msPerDay + 3600000) 0 0).totalScore = 25 ∧
      specScoreTotal "Student" 0 (6 * msPerDay + 3600000) 0 = 20 ∧
      (calculatePriorityScore "Student" 0 (6 * msPerDay + 3600000) 0 0).totalScore ≠
        specScoreTotal "Student" 0 (6 * msPerDay + 3600000) 0 := by decide

/-- C4 (amended): the category mapping, attendance bonus and total range are
as the spec states; the advance bonus is `floor(ceil(|windowStart − now| in
days) / 7) × 5` capped at 25, computed from the wall-clock evaluation time
`now`, with the `submissionTime` (`bookingDate`) argument ignored. -/
theorem c4_score_amended (c : String) (sub start att now : Int) (hatt : 0 ≤ att) :
    ScoreBehavior c sub start att now := by
  have habs : (0 : Int) ≤ |start - now| := abs_nonneg _
  have hnum : (0 : Int) ≤ |start - now| + msPerDay - 1 := by
    unfold msPerDay
    omega
  have hceil : (0 : Int) ≤ jsCeilDiv |start - now| msPerDay := by
    unfold jsCeilDiv
    exact Int.fdiv_nonneg hnum (by norm_num [msPerDay])
  have hweeks : (0 : Int) ≤ jsFloorDiv (jsCeilDiv |start - now| msPerDay) 7 := by
    unfold jsFloorDiv
    exact Int.fdiv_nonneg hceil (by norm_num)
  have hadv0 : (0 : Int) ≤ min (jsFloorDiv (jsCeilDiv |start - now| msPerDay) 7 * 5) 25 :=
    le_min (by linarith) (by norm_num)
  have hadv25 : min (jsFloorDiv (jsCeilDiv |start - now| msPerDay) 7 * 5) 25 ≤ 25 :=
    min_le_right _ _
  have hatt0 : (0 : Int) ≤ min (jsFloorDiv att 10) 20 :=
    le_min (by unfold jsFloorDiv; exact Int.fdiv_nonneg hatt (by norm_num)) (by norm_num)
  have hatt20 : min (jsFloorDiv att 10) 20 ≤ 20 := min_le_right _ _
  have hcat10 : (10 : Int) ≤ categoryScoreOf c := by
    unfold categoryScoreOf
    split_ifs <;> norm_num
  have hcat100 : categoryScoreOf c ≤ 100 := by
    unfold categoryScoreOf
    split_ifs <;> norm_num
  rw [ScoreBehavior, calc_breakdown]
  refine ⟨rfl, rfl, ⟨hadv0, hadv25⟩, rfl, ⟨hatt0, hatt20⟩, rfl, ⟨?_, ?_⟩, rfl⟩
  · simp only
    linarith
  · simp only
    linarith

/-- Witness for C4 (amended) at a concrete input. -/
theorem c4_score_amended_witness :
    (0 : Int) ≤ 50 ∧ ScoreBehavior "Student" 3 (10 * msPerDay) 50 0 :=
  ⟨by decide, c4_score_amended "Student" 3 (10 * msPerDay) 50 0 (by decide)⟩

/-! ## Positional helpers for the collection -/

lemma get_congr {α : Type} (l1 l2 : List α) (h : l1 = l2) (i : Nat)
    (h1 : i < l1.length) :
    l1.get ⟨i, h1⟩ = l2.get ⟨i, h ▸ h1⟩ := by
  subst h
  rfl

lemma get_map_idx {α β : Type} (f : α → β) :
    ∀ (l : List α) (i : Nat) (h1 : i < l.length) (h2 : i < (l.map f).length),
      (l.map f).get ⟨i, h2⟩ = f (l.get ⟨i, h1⟩) := by
  intro l
  induction l with
  | nil => intro i h1 _; exact absurd h1 (Nat.not_lt_zero i)
  | cons x rest ih =>
    intro i h1 h2
    cases i with
    | zero => rfl
    | succ k => exact ih k (Nat.lt_of_succ_lt_succ h1) (Nat.lt_of_succ_lt_succ h2)

lemma get_append_sing {α : Type} (a : α) :
    ∀ (l : List α) (i : Nat) (h1 : i < l.length) (h2 : i < (l ++ [a]).length),
      (l ++ [a]).get ⟨i, h2⟩ = l.get ⟨i, h1⟩ := by
  intro l
  induction l with
  | nil => intro i h1 _; exact absurd h1 (Nat.not_lt_zero i)
  | cons x rest ih =>
    intro i h1 h2
    cases i with
    | zero => rfl
    | succ k => exact ih k (Nat.lt_of_succ_lt_succ h1) (Nat.lt_of_succ_lt_succ h2)

/-- The bookings after a successful approval are an id-preserving map of the
collection whose only status changes are into `approved` or `rejected`. -/
lemma approveFinish_shape (uid : Nat) (remarks : String) (db : DB) (hb : Booking) :
    ∃ t : Booking → Booking,
      (∀ x, (t x).id = x.id ∧
        ((t x).status = x.status ∨ (t x).status = .approved ∨
          (t x).status = .rejected)) ∧
      (approveFinish uid remarks db hb).bookings = db.bookings.map t := by
  unfold approveFinish overrideTargetBookings
  by_cases hic : hb.isConflict
  · rw [if_pos hic]
    cases hov : hb.overriddenBooking with
    | none =>
      refine ⟨fun x => if x.id = hb.id then approveUpd x else x, ?_, rfl⟩
      intro x
      by_cases hx : x.id = hb.id <;> simp [hx, approveUpd]
    | some oid =>
      refine ⟨(fun x => if x.id = hb.id then approveUpd x else x) ∘
        (fun x => if x.id = oid then overrideUpd x else x), ?_, ?_⟩
      · intro x
        by_cases hx : x.id = oid
        · by_cases hy : x.id = hb.id
          · have hoe : oid = hb.id := hx.symm.trans hy
            simp [Function.comp, hx, hy, approveUpd, overrideUpd, hoe]
          · have hoe : ¬ oid = hb.id := fun h => hy (hx.trans h)
            simp [Function.comp, hx, hy, approveUpd, overrideUpd, hoe]
        · by_cases hy : x.id = hb.id
          · have hoe : ¬ hb.id = oid := fun h => hx (hy.trans h)
            simp [Function.comp, hx, hy, approveUpd, overrideUpd, hoe]
          · simp [Function.comp, hx, hy, approveUpd, overrideUpd]
      · unfold updateBooking
        rw [List.map_map]
  · rw [if_neg hic]
    refine ⟨fun x => if x.id = hb.id then approveUpd x else x, ?_, rfl⟩
    intro x
    by_cases hx : x.id = hb.id <;> simp [hx, approveUpd]

/-- Any operation leaves the collection unchanged, appends one new document,
or maps an id-preserving per-document update whose only status changes are
into `approved` or into `rejected`. -/
lemma stepOp_bookings_cases (db : DB) (op : Op) :
    (stepOp db op).bookings = db.bookings ∨
    (∃ nb, (stepOp db op).bookings = db.bookings ++ [nb]) ∨
    (∃ t : Booking → Booking,
      (∀ x, (t x).id = x.id ∧
        ((t x).status = x.status ∨ (t x).status = .approved ∨
          (t x).status = .rejected)) ∧
      (stepOp db op).bookings = db.bookings.map t) := by
  cases op with
  | create now uid req =>
    simp only [stepOp]
    unfold createBooking
    repeat' split
    all_goals
      first
        | exact Or.inl rfl
        | exact Or.inr (Or.inl ⟨_, rfl⟩)
  | approve uid id remarks =>
    simp only [stepOp]
    unfold approveBooking
    repeat' split
    all_goals
      first
        | exact Or.inl rfl
        | exact Or.inr (Or.inr (approveFinish_shape uid remarks db _))
  | reject uid id reason =>
    simp only [stepOp]
    unfold rejectBooking
    repeat' split
    all_goals
      first
        | exact Or.inl rfl
        | exact Or.inr (Or.inr
            ⟨fun x => if x.id = id then rejectUpd reason x else x,
              fun x => by
                by_cases hx : x.id = id <;> simp [hx, rejectUpd],
              rfl⟩)

/-! ## Claim C5: score determinism -/

/-- C5: the implemented scorer is not a function of its declared inputs
alone — with the declared tuple (category, submissionTime, windowStart,
expectedAttendance) held fixed, evaluating at wall-clock time 0 and at
wall-clock time 34 days yields different results (total 45 vs total 20),
because `calculatePriorityScore` reads `new Date()` internally and ignores
its `bookingDate` argument. -/
theorem c5_wallclock_dependence :
    calculatePriorityScore "Student" 0 (35 * msPerDay) 0 0 ≠
      calculatePriorityScore "Student" 0 (35 * msPerDay) 0 (34 * msPerDay) ∧
    (calculatePriorityScore "Student" 0 (35 * msPerDay) 0 0).totalScore = 45 ∧
    (calculatePriorityScore "Student" 0 (35 * msPerDay) 0 (34 * msPerDay)).totalScore = 20 := by
  decide

/-! ## Claim C6: the approval state machine transitions -/

/-- C6 counterexample: `approveBooking` guards only against status
`"approved"` and `rejectBooking` has no status guard at all, so a rejected
booking can be approved and an approved booking can be rejected — `rejected`
and `approved` are not terminal. -/
theorem c6_terminal_counterexample :
    (runOps [.create 0 1 (mkReq "Student" 0 false),
             .reject 5 0 "no"]).bookings.map Booking.status = [Status.rejected] ∧
    (runOps [.create 0 1 (mkReq "Student" 0 false),
             .reject 5 0 "no",
             .approve 5 0 ""]).bookings.map Booking.status = [Status.approved] ∧
    (runOps [.create 0 1 (mkReq "Student" 0 false),
             .approve 5 0 ""]).bookings.map Booking.status = [Status.approved] ∧
    (runOps [.create 0 1 (mkReq "Student" 0 false),
             .approve 5 0 "",
             .reject 5 0 "undo"]).bookings.map Booking.status = [Status.rejected] := by
  decide

/-- C6 (amended): across any single operation, a stored booking's id is
preserved and its status either stays unchanged, moves from a non-approved
status (pending or rejected) to approved, or moves to rejected; no other
transition is possible. -/
theorem c6_transitions (db : DB) (op : Op) (i : Nat)
    (h1 : i < db.bookings.length) (h2 : i < (stepOp db op).bookings.length) :
    ((stepOp db op).bookings.get ⟨i, h2⟩).id = (db.bookings.get ⟨i, h1⟩).id ∧
      (((stepOp db op).bookings.get ⟨i, h2⟩).status = (db.bookings.get ⟨i, h1⟩).status ∨
        ((db.bookings.get ⟨i, h1⟩).status ≠ .approved ∧
          ((stepOp db op).bookings.get ⟨i, h2⟩).status = .approved) ∨
        ((stepOp db op).bookings.get ⟨i, h2⟩).status = .rejected) := by
  rcases stepOp_bookings_cases db op with hcase | ⟨nb, hcase⟩ | ⟨t, ht, hcase⟩
  · rw [get_congr _ _ hcase i h2]
    exact ⟨rfl, Or.inl rfl⟩
  · rw [get_congr _ _ hcase i h2, get_append_sing nb db.bookings i h1 _]
    exact ⟨rfl, Or.inl rfl⟩
  · rw [get_congr _ _ hcase i h2, get_map_idx t db.bookings i h1 _]
    obtain ⟨hid, hst⟩ := ht (db.bookings.get ⟨i, h1⟩)
    refine ⟨hid, ?_⟩
    rcases hst with h | h | h
    · exact Or.inl h
    · by_cases horig : (db.bookings.get ⟨i, h1⟩).status = .approved
      · exact Or.inl (h.trans horig.symm)
      · exact Or.inr (Or.inl ⟨horig, h⟩)
    · exact Or.inr (Or.inr h)

/-- Witness for C6 (amended): rejecting the only pending booking. -/
theorem c6_transitions_witness :
    ((stepOp (runOps [.create 0 1 (mkReq "Student" 0 false)])
        (Op.reject 5 0 "late")).bookings.get ⟨0, by decide⟩).id =
      (((runOps [.create 0 1 (mkReq "Student" 0 false)])).bookings.get ⟨0, by decide⟩).id ∧
      (((stepOp (runOps [.create 0 1 (mkReq "Student" 0 false)])
          (Op.reject 5 0 "late")).bookings.get ⟨0, by decide⟩).status =
        (((runOps [.create 0 1 (mkReq "Student" 0 false)])).bookings.get ⟨0, by decide⟩).status ∨
        ((((runOps [.create 0 1 (mkReq "Student" 0 false)])).bookings.get ⟨0, by decide⟩).status ≠ .approved ∧
          ((stepOp (runOps [.create 0 1 (mkReq "Student" 0 false)])
            (Op.reject 5 0 "late")).bookings.get ⟨0, by decide⟩).status = .approved) ∨
        ((stepOp (runOps [.create 0 1 (mkReq "Student" 0 false)])
          (Op.reject 5 0 "late")).bookings.get ⟨0, by decide⟩).status = .rejected) :=
  c6_transitions (runOps [.create 0 1 (mkReq "Student" 0 false)])
    (Op.reject 5 0 "late") 0 (by decide) (by decide)

/-! ## Claims C7 and C10: the override approval postcondition and its audit
entry -/

lemma upd_point_id (tid : Nat) (f : Booking → Booking)
    (hf : ∀ x, (f x).id = x.id) (x : Booking) :
    ((if x.id = tid then f x else x)).id = x.id := by
  by_cases h : x.id = tid <;> simp [h, hf]

lemma find?_ext {α : Type} (p q : α → Bool) (h : ∀ a, p a = q a) :
    ∀ l : List α, l.find? p = l.find? q := by
  intro l
  induction l with
  | nil => rfl
  | cons x rest ih => simp only [List.find?_cons, h x, ih]

lemma find_update (tid qid : Nat) (f : Booking → Booking)
    (hf : ∀ x, (f x).id = x.id) :
    ∀ l : List Booking,
      (updateBooking tid f l).find? (fun x => decide (x.id = qid)) =
        (l.find? (fun x => decide (x.id = qid))).map
          (fun x => if x.id = tid then f x else x) := by
  intro l
  unfold updateBooking
  rw [List.find?_map]
  exact congrArg (Option.map _)
    (find?_ext _ _
      (fun a => by
        show decide (((if a.id = tid then f a else a)).id = qid) = decide (a.id = qid)
        rw [upd_point_id tid f hf a])
      l)

lemma approveUpd_id (x : Booking) : (approveUpd x).id = x.id := rfl

lemma overrideUpd_id (x : Booking) : (overrideUpd x).id = x.id := rfl

/-- The reduction of `approveBooking` on the override path. -/
lemma approveBooking_override_eq (db : DB) (uid id : Nat) (remarks : String)
    (b : Booking)
    (hfind : findBooking db id = some b)
    (hstatus : b.status ≠ .approved)
    (hconf : b.isConflict = true) :
    approveBooking uid id remarks db =
      (.approvedOk, approveFinish uid remarks db b) := by
  unfold approveBooking
  rw [hfind]
  simp only [hconf, if_neg hstatus]
  simp

/-- C7 (amended): approving a conflict-flagged booking whose recorded
override target exists sets the target to rejected with rejectionReason
`"Overridden by higher priority event"`, sets the booking itself to
approved, and appends exactly two log entries: the target's entry with
action `"Rejected"` (remarks `"System Auto-Rejection: Overridden by
priority booking"`) and the booking's `"Approved"` entry. -/
theorem c7_override_amended (db : DB) (uid id oid : Nat) (remarks : String)
    (b old : Booking)
    (hfind : findBooking db id = some b)
    (hstatus : b.status ≠ .approved)
    (hconf : b.isConflict = true)
    (hov : b.overriddenBooking = some oid)
    (hold : findBooking db oid = some old)
    (hne : oid ≠ id) :
    OverridePost db uid id oid remarks b old := by
  have hfind' : db.bookings.find? (fun x => decide (x.id = id)) = some b := hfind
  have hold' : db.bookings.find? (fun x => decide (x.id = oid)) = some old := hold
  have hbid : b.id = id := by
    have := List.find?_some hfind'
    simpa using this
  have holdid : old.id = oid := by
    have := List.find?_some hold'
    simpa using this
  have happ := approveBooking_override_eq db uid id remarks b hfind hstatus hconf
  have hbase : overrideTargetBookings db b = updateBooking oid overrideUpd db.bookings := by
    unfold overrideTargetBookings
    rw [if_pos hconf]
    simp only [hov]
  have hlogl : overrideLogList uid db b = [overrideLogEntry uid oid old] := by
    unfold overrideLogList
    rw [if_pos hconf]
    simp only [hov, hold]
  refine ⟨by rw [happ], ?_, ?_, ?_⟩
  · rw [happ]
    show findBooking (approveFinish uid remarks db b) oid = _
    unfold approveFinish findBooking
    simp only [hbase]
    rw [find_update b.id oid approveUpd approveUpd_id,
      find_update oid oid overrideUpd overrideUpd_id]
    rw [hold']
    simp only [Option.map_some']
    rw [if_pos holdid]
    have hoid : (overrideUpd old).id = oid := by rw [overrideUpd_id, holdid]
    rw [if_neg (show ¬ (overrideUpd old).id = b.id by rw [hoid, hbid]; exact hne)]
    rfl
  · rw [happ]
    show findBooking (approveFinish uid remarks db b) id = _
    unfold approveFinish findBooking
    simp only [hbase]
    rw [find_update b.id id approveUpd approveUpd_id,
      find_update oid id overrideUpd overrideUpd_id]
    rw [hfind']
    simp only [Option.map_some']
    rw [if_neg (show ¬ b.id = oid by rw [hbid]; exact fun h => hne h.symm)]
    rw [if_pos rfl]
    rfl
  · rw [happ]
    show (approveFinish uid remarks db b).logs = _
    unfold approveFinish
    rw [hlogl, List.append_assoc]
    rfl

/-- Witness for C7 (amended) on a concrete store. -/
theorem c7_override_amended_witness :
    OverridePost overrideDB 9 1 0 "" ovB (bk0 0 "H" 0 10 25 .pending) :=
  c7_override_amended overrideDB 9 1 0 "" ovB (bk0 0 "H" 0 10 25 .pending)
    (by decide) (by decide) (by decide) (by decide) (by decide) (by decide)

/-- C7 counterexample: on the concrete override approval, the stored
rejection reason is `"Overridden by higher priority event"`, not the spec's
`"Overridden by higher priority reservation"`, and no log entry carries the
action `"OverrideRejected"` — the target's entry has action `"Rejected"`. -/
theorem c7_override_counterexample :
    (findBooking (approveBooking 9 1 "" overrideDB).2 0).map Booking.rejectionReason ≠
      some "Overridden by higher priority reservation" ∧
    (findBooking (approveBooking 9 1 "" overrideDB).2 0).map Booking.rejectionReason =
      some "Overridden by higher priority event" ∧
    (approveBooking 9 1 "" overrideDB).2.logs.all
      (fun l => decide (l.action ≠ "OverrideRejected")) = true ∧
    (approveBooking 9 1 "" overrideDB).2.logs.map LogEntry.action =
      ["Rejected", "Approved"] := by
  decide

/-- C10: approving an override booking whose target exists appends, for the
target, a log entry with action `"Rejected"` and `previousStatus`
`"approved"` — with no hypothesis on `old.status`, i.e. regardless of the
target's actual status before the update. -/
theorem c10_prev_status_hardcoded (db : DB) (uid id oid : Nat)
    (remarks : String) (b old : Booking)
    (hfind : findBooking db id = some b)
    (hstatus : b.status ≠ .approved)
    (hconf : b.isConflict = true)
    (hov : b.overriddenBooking = some oid)
    (hold : findBooking db oid = some old) :
    ∃ rest, (approveBooking uid id remarks db).2.logs =
      db.logs ++
        ({ booking := oid, action := "Rejected", performedBy := uid,
           previousStatus := "approved", newStatus := "rejected",
           remarks := "System Auto-Rejection: Overridden by priority booking",
           snapScore := old.priorityScore, snapCategory := old.eventCategory,
           snapDetails := none } : LogEntry) :: rest := by
  have happ := approveBooking_override_eq db uid id remarks b hfind hstatus hconf
  have hlogl : overrideLogList uid db b = [overrideLogEntry uid oid old] := by
    unfold overrideLogList
    rw [if_pos hconf]
    simp only [hov, hold]
  refine ⟨[approvedLogEntry uid b remarks], ?_⟩
  rw [happ]
  show (approveFinish uid remarks db b).logs = _
  unfold approveFinish
  rw [hlogl, List.append_assoc]
  rfl

/-- Witness for C10: the target is already rejected, yet its audit entry
still records `previousStatus = "approved"`. -/
theorem c10_prev_status_hardcoded_witness :
    ∃ rest, (approveBooking 9 1 "" rejectedTargetDB).2.logs =
      rejectedTargetDB.logs ++
        ({ booking := 0, action := "Rejected", performedBy := 9,
           previousStatus := "approved", newStatus := "rejected",
           remarks := "System Auto-Rejection: Overridden by priority booking",
           snapScore := 25, snapCategory := "Student",
           snapDetails := none } : LogEntry) :: rest :=
  c10_prev_status_hardcoded rejectedTargetDB 9 1 0 "" ovB
    (bk0 0 "H" 0 10 25 .rejected)
    (by decide) (by decide) (by decide) (by decide) (by decide)

/-! ## Claim C1: the live-overlap invariant over reachable stores -/

lemma conflict_none_notmatch {db : DB} {hall : String} {s e : Int}
    {excl : Option Nat} (h : hasConflictForHall db hall s e excl = none) :
    ∀ b ∈ db.bookings, matchesConflictQuery hall s e excl b = false := by
  intro b hb
  unfold hasConflictForHall at h
  have hnil := (pickHighest_eq_none _).mp h
  have h2 := List.filter_eq_nil_iff.mp hnil b hb
  exact Bool.eq_false_iff.mpr h2

lemma find_eq_of_pairwise :
    ∀ (l : List Booking), l.Pairwise (fun a b => a.id ≠ b.id) →
      ∀ (i : Nat) (b : Booking),
        l.find? (fun x => decide (x.id = i)) = some b →
        ∀ x ∈ l, x.id = i → x = b := by
  intro l
  induction l with
  | nil => intro _ i b hf x hx; cases hx
  | cons y rest ih =>
    intro hp i b hf x hx hxi
    rw [List.pairwise_cons] at hp
    by_cases hy : y.id = i
    · have hfy : some y = some b := by
        rw [List.find?_cons] at hf
        have hd : decide (y.id = i) = true := by simp [hy]
        rw [hd] at hf
        exact hf
      have hyb : y = b := Option.some.inj hfy
      rcases List.mem_cons.mp hx with rfl | hxr
      · exact hyb
      · exact absurd (hy.trans hxi.symm) (hp.1 x hxr)
    · have hfr : rest.find? (fun x => decide (x.id = i)) = some b := by
        rw [List.find?_cons] at hf
        have hd : decide (y.id = i) = false := by simp [hy]
        rw [hd] at hf
        exact hf
      rcases List.mem_cons.mp hx with rfl | hxr
      · exact absurd hxi hy
      · exact ih hp.2 i b hfr x hxr hxi

lemma mem_update {x' : Booking} {tid : Nat} {f : Booking → Booking}
    {l : List Booking} (hx' : x' ∈ updateBooking tid f l) :
    ∃ x ∈ l, x' = if x.id = tid then f x else x := by
  unfold updateBooking at hx'
  obtain ⟨x, hx, hfx⟩ := List.mem_map.mp hx'
  exact ⟨x, hx, hfx.symm⟩

lemma pairwise_ids_update (tid : Nat) (f : Booking → Booking)
    (hf : ∀ x, (f x).id = x.id) (l : List Booking)
    (h : l.Pairwise (fun a b => a.id ≠ b.id)) :
    (updateBooking tid f l).Pairwise (fun a b => a.id ≠ b.id) := by
  unfold updateBooking
  rw [List.pairwise_map]
  exact h.imp (fun {a c} hne => by
    rw [upd_point_id tid f hf a, upd_point_id tid f hf c]
    exact hne)

/-- A submission either leaves the store unchanged (validation failure or
conflict response) or appends one pending booking with the next id, whose
conflict flag, when false, certifies that the conflict checker found no live
overlap for its hall and window. -/
lemma createBooking_cases (now : Int) (uid : Nat) (req : CreateRequest) (db : DB) :
    (createBooking now uid req db).2 = db ∨
    ∃ nb, (createBooking now uid req db).2 =
        { db with bookings := db.bookings ++ [nb], nextId := db.nextId + 1 } ∧
      nb.id = db.nextId ∧ nb.status = .pending ∧
      (nb.isConflict = false →
        hasConflictForHall db nb.hall nb.startTime nb.endTime none = none) := by
  unfold createBooking
  split
  · exact Or.inl rfl
  · split
    · split
      · exact Or.inl rfl
      · split
        · exact Or.inl rfl
        · split
          · split
            · exact Or.inl rfl
            · right
              refine ⟨_, rfl, rfl, rfl, ?_⟩
              intro hfalse
              simp [mkBooking] at hfalse
          · rename_i hcnone
            right
            refine ⟨_, rfl, rfl, rfl, ?_⟩
            intro _
            exact hcnone
    · exact Or.inl rfl
    · exact Or.inl rfl

/-- An approval either leaves the store unchanged (not found, duplicate
approval, failed re-check) or runs `approveFinish` on a found, non-approved
booking; when that booking is not conflict-flagged, the re-check certified
that no other live booking overlaps it. -/
lemma approveBooking_cases (uid id : Nat) (remarks : String) (db : DB) :
    (approveBooking uid id remarks db).2 = db ∨
    ∃ b, findBooking db id = some b ∧ b.status ≠ .approved ∧
      (approveBooking uid id remarks db).2 = approveFinish uid remarks db b ∧
      (b.isConflict = false →
        hasConflictForHall db b.hall b.startTime b.endTime (some b.id) = none) := by
  unfold approveBooking
  split
  · exact Or.inl rfl
  · rename_i b hfind
    split
    · exact Or.inl rfl
    · rename_i hstat
      split
      · split
        · exact Or.inl rfl
        · rename_i hnone
          exact Or.inr ⟨b, hfind, hstat, rfl, fun _ => hnone⟩
      · rename_i hconf
        exact Or.inr ⟨b, hfind, hstat, rfl, fun hfalse => absurd hfalse hconf⟩

/-- A rejection either leaves the store unchanged (not found) or rejects the
addressed booking in place. -/
lemma rejectBooking_cases (uid id : Nat) (reason : String) (db : DB) :
    (rejectBooking uid id reason db).2 = db ∨
    ((rejectBooking uid id reason db).2.bookings =
        updateBooking id (rejectUpd reason) db.bookings ∧
      (rejectBooking uid id reason db).2.nextId = db.nextId) := by
  unfold rejectBooking
  split
  · exact Or.inl rfl
  · exact Or.inr ⟨rfl, rfl⟩

/-- Every booking after a successful approval descends from a stored booking
with the same id, hall, window and conflict flag; its status is unchanged,
or rejected, or approved in the case of the booking addressed by the
approval. -/
lemma approveFinish_members (uid : Nat) (remarks : String) (db : DB) (b : Booking) :
    ∀ x' ∈ (approveFinish uid remarks db b).bookings,
      ∃ x ∈ db.bookings,
        x'.id = x.id ∧ x'.hall = x.hall ∧ x'.startTime = x.startTime ∧
        x'.endTime = x.endTime ∧ x'.isConflict = x.isConflict ∧
        (x'.status = x.status ∨ x'.status = .rejected ∨
          (x.id = b.id ∧ x'.status = .approved)) := by
  intro x' hx'
  have hx2 : x' ∈ updateBooking b.id approveUpd (overrideTargetBookings db b) := hx'
  obtain ⟨y, hy, hxy⟩ := mem_update hx2
  have hyfrom : ∃ x ∈ db.bookings,
      y.id = x.id ∧ y.hall = x.hall ∧ y.startTime = x.startTime ∧
      y.endTime = x.endTime ∧ y.isConflict = x.isConflict ∧
      (y.status = x.status ∨ y.status = .rejected) := by
    unfold overrideTargetBookings at hy
    by_cases hic : b.isConflict
    · rw [if_pos hic] at hy
      cases hov : b.overriddenBooking with
      | none =>
        rw [hov] at hy
        exact ⟨y, hy, rfl, rfl, rfl, rfl, rfl, Or.inl rfl⟩
      | some oid =>
        rw [hov] at hy
        obtain ⟨x, hxmem, hyx⟩ := mem_update hy
        by_cases hxoid : x.id = oid
        · rw [if_pos hxoid] at hyx
          subst hyx
          exact ⟨x, hxmem, rfl, rfl, rfl, rfl, rfl, Or.inr rfl⟩
        · rw [if_neg hxoid] at hyx
          subst hyx
          exact ⟨y, hxmem, rfl, rfl, rfl, rfl, rfl, Or.inl rfl⟩
    · rw [if_neg hic] at hy
      exact ⟨y, hy, rfl, rfl, rfl, rfl, rfl, Or.inl rfl⟩
  obtain ⟨x, hxmem, hid, hhall, hst, hen, hic2, hstat⟩ := hyfrom
  by_cases hyb : y.id = b.id
  · rw [if_pos hyb] at hxy
    subst hxy
    exact ⟨x, hxmem, hid, hhall, hst, hen, hic2,
      Or.inr (Or.inr ⟨hid ▸ hyb, rfl⟩)⟩
  · rw [if_neg hyb] at hxy
    subst hxy
    exact ⟨x, hxmem, hid, hhall, hst, hen, hic2,
      hstat.imp_right Or.inl⟩

/-- One operation preserves the store invariant. -/
theorem storeInv_preserved (db : DB) (op : Op) (h : StoreInv db) :
    StoreInv (stepOp db op) := by
  obtain ⟨hbelow, hdist, hsafe⟩ := h
  cases op with
  | create now uid req =>
    show StoreInv (createBooking now uid req db).2
    rcases createBooking_cases now uid req db with heq | ⟨nb, heq, hid, hstat, hnc⟩
    · rw [heq]; exact ⟨hbelow, hdist, hsafe⟩
    · rw [heq]
      refine ⟨?_, ?_, ?_⟩
      · intro x hx
        rcases List.mem_append.mp hx with hxo | hxn
        · exact Nat.lt_succ_of_lt (hbelow x hxo)
        · rw [List.mem_singleton.mp hxn, hid]
          exact Nat.lt_succ_self _
      · refine List.pairwise_append.mpr ⟨hdist, List.pairwise_singleton _ _, ?_⟩
        intro a ha c hc
        rw [List.mem_singleton.mp hc, hid]
        exact Nat.ne_of_lt (hbelow a ha)
      · intro b1 hb1 b2 hb2 hneid hhall hl1 hl2 ho1 ho2
        rcases List.mem_append.mp hb1 with hb1o | hb1n
        · rcases List.mem_append.mp hb2 with hb2o | hb2n
          · exact hsafe b1 hb1o b2 hb2o hneid hhall hl1 hl2 ho1 ho2
          · have hb2e : b2 = nb := List.mem_singleton.mp hb2n
            by_cases hc : b2.isConflict = true
            · exact Or.inr hc
            · exfalso
              have hcf : nb.isConflict = false := by
                rw [← hb2e]; exact Bool.eq_false_iff.mpr hc
              have hq := conflict_none_notmatch (hnc hcf) b1 hb1o
              have hqt : matchesConflictQuery nb.hall nb.startTime nb.endTime none b1 = true := by
                rw [matches_iff]
                refine ⟨?_, (isLive_iff _).mp hl1, ?_, ?_,
                  fun x hx => Option.noConfusion hx⟩
                · rw [← hb2e]; exact hhall
                · rw [← hb2e]; exact ho1
                · rw [← hb2e]; exact ho2
              exact absurd (hq ▸ hqt) (by decide)
        · have hb1e : b1 = nb := List.mem_singleton.mp hb1n
          rcases List.mem_append.mp hb2 with hb2o | hb2n
          · by_cases hc : b1.isConflict = true
            · exact Or.inl hc
            · exfalso
              have hcf : nb.isConflict = false := by
                rw [← hb1e]; exact Bool.eq_false_iff.mpr hc
              have hq := conflict_none_notmatch (hnc hcf) b2 hb2o
              have hqt : matchesConflictQuery nb.hall nb.startTime nb.endTime none b2 = true := by
                rw [matches_iff]
                refine ⟨?_, (isLive_iff _).mp hl2, ?_, ?_,
                  fun x hx => Option.noConfusion hx⟩
                · rw [← hb1e]; exact hhall.symm
                · rw [← hb1e]; exact ho2
                · rw [← hb1e]; exact ho1
              exact absurd (hq ▸ hqt) (by decide)
          · have heq12 : b1 = b2 :=
              hb1e.trans (List.mem_singleton.mp hb2n).symm
            exact absurd (congrArg Booking.id heq12) hneid
  | approve uid id remarks =>
    show StoreInv (approveBooking uid id remarks db).2
    rcases approveBooking_cases uid id remarks db with heq | ⟨b, hfind, hstat, heq, hrecheck⟩
    · rw [heq]; exact ⟨hbelow, hdist, hsafe⟩
    · rw [heq]
      have hfind' : db.bookings.find? (fun x => decide (x.id = id)) = some b := hfind
      have hbid : b.id = id := by
        have := List.find?_some hfind'
        simpa using this
      refine ⟨?_, ?_, ?_⟩
      · intro x hx
        obtain ⟨x0, hx0, hxid, _⟩ := approveFinish_members uid remarks db b x hx
        show x.id < db.nextId
        rw [hxid]
        exact hbelow x0 hx0
      · show (approveFinish uid remarks db b).bookings.Pairwise (fun a c => a.id ≠ c.id)
        have h1 : (overrideTargetBookings db b).Pairwise (fun a c => a.id ≠ c.id) := by
          unfold overrideTargetBookings
          by_cases hic : b.isConflict
          · rw [if_pos hic]
            cases b.overriddenBooking with
            | none => exact hdist
            | some oid => exact pairwise_ids_update oid overrideUpd overrideUpd_id _ hdist
          · rw [if_neg hic]; exact hdist
        exact pairwise_ids_update b.id approveUpd approveUpd_id _ h1
      · intro b1' hb1' b2' hb2' hneid hhall hl1 hl2 ho1 ho2
        obtain ⟨b1, hb1, hid1, hhall1, hst1, hen1, hic1, hstat1⟩ :=
          approveFinish_members uid remarks db b b1' hb1'
        obtain ⟨b2, hb2, hid2, hhall2, hst2, hen2, hic2, hstat2⟩ :=
          approveFinish_members uid remarks db b b2' hb2'
        by_cases h1b : b1.id = b.id
        · have hb1eq : b1 = b :=
            find_eq_of_pairwise db.bookings hdist id b hfind' b1 hb1 (h1b.trans hbid)
          by_cases hcb : b.isConflict = true
          · exact Or.inl (by rw [hic1, hb1eq]; exact hcb)
          · exfalso
            have hcf : b.isConflict = false := Bool.eq_false_iff.mpr hcb
            have hnone := hrecheck hcf
            have hb2ne : b2.id ≠ b.id := by
              intro hcontra
              exact hneid (by rw [hid1, hid2, h1b, hcontra])
            have hlive2 : b2.status.isLive = true := by
              rcases hstat2 with hs | hs | hs
              · rw [hs] at hl2; exact hl2
              · rw [hs] at hl2; simp [Status.isLive] at hl2
              · exact absurd hs.1 hb2ne
            have hq := conflict_none_notmatch hnone b2 hb2
            have hqt : matchesConflictQuery b.hall b.startTime b.endTime (some b.id) b2 = true := by
              rw [matches_iff]
              refine ⟨?_, (isLive_iff _).mp hlive2, ?_, ?_, ?_⟩
              · rw [← hhall2, ← hhall, hhall1, hb1eq]
              · have hbe : b1'.endTime = b.endTime := by rw [hen1, hb1eq]
                rw [← hst2, ← hbe]
                exact ho2
              · have hbs : b1'.startTime = b.startTime := by rw [hst1, hb1eq]
                rw [← hbs, ← hen2]
                exact ho1
              · intro x hx
                exact (Option.some.inj hx) ▸ hb2ne
            exact absurd (hq ▸ hqt) (by decide)
        · by_cases h2b : b2.id = b.id
          · have hb2eq : b2 = b :=
              find_eq_of_pairwise db.bookings hdist id b hfind' b2 hb2 (h2b.trans hbid)
            by_cases hcb : b.isConflict = true
            · exact Or.inr (by rw [hic2, hb2eq]; exact hcb)
            · exfalso
              have hcf : b.isConflict = false := Bool.eq_false_iff.mpr hcb
              have hnone := hrecheck hcf
              have hlive1 : b1.status.isLive = true := by
                rcases hstat1 with hs | hs | hs
                · rw [hs] at hl1; exact hl1
                · rw [hs] at hl1; simp [Status.isLive] at hl1
                · exact absurd hs.1 h1b
              have hq := conflict_none_notmatch hnone b1 hb1
              have hqt : matchesConflictQuery b.hall b.startTime b.endTime (some b.id) b1 = true := by
                rw [matches_iff]
                refine ⟨?_, (isLive_iff _).mp hlive1, ?_, ?_, ?_⟩
                · rw [← hhall1, hhall, hhall2, hb2eq]
                · have hbe : b2'.endTime = b.endTime := by rw [hen2, hb2eq]
                  rw [← hst1, ← hbe]
                  exact ho1
                · have hbs : b2'.startTime = b.startTime := by rw [hst2, hb2eq]
                  rw [← hbs, ← hen1]
                  exact ho2
                · intro x hx
                  exact (Option.some.inj hx) ▸ h1b
              exact absurd (hq ▸ hqt) (by decide)
          · have hlive1 : b1.status.isLive = true ∧ b1'.status = b1.status := by
              rcases hstat1 with hs | hs | hs
              · exact ⟨hs ▸ hl1, hs⟩
              · rw [hs] at hl1; simp [Status.isLive] at hl1
              · exact absurd hs.1 h1b
            have hlive2 : b2.status.isLive = true ∧ b2'.status = b2.status := by
              rcases hstat2 with hs | hs | hs
              · exact ⟨hs ▸ hl2, hs⟩
              · rw [hs] at hl2; simp [Status.isLive] at hl2
              · exact absurd hs.1 h2b
            have hres := hsafe b1 hb1 b2 hb2
              (by rw [← hid1, ← hid2]; exact hneid)
              (by rw [← hhall1, ← hhall2]; exact hhall)
              hlive1.1 hlive2.1
              (by rw [← hst1, ← hen2]; exact ho1)
              (by rw [← hst2, ← hen1]; exact ho2)
            rcases hres with hres | hres
            · exact Or.inl (by rw [hic1]; exact hres)
            · exact Or.inr (by rw [hic2]; exact hres)
  | reject uid id reason =>
    show StoreInv (rejectBooking uid id reason db).2
    rcases rejectBooking_cases uid id reason db with heq | ⟨hbk, hnx⟩
    · rw [heq]; exact ⟨hbelow, hdist, hsafe⟩
    · refine ⟨?_, ?_, ?_⟩
      · intro x hx
        rw [hbk] at hx
        obtain ⟨x0, hx0, hxeq⟩ := mem_update hx
        show x.id < (rejectBooking uid id reason db).2.nextId
        rw [hnx]
        have hxid : x.id = x0.id := by
          rw [hxeq]
          exact upd_point_id id (rejectUpd reason) (fun y => rfl) x0
        rw [hxid]
        exact hbelow x0 hx0
      · show ((rejectBooking uid id reason db).2.bookings).Pairwise (fun a c => a.id ≠ c.id)
        rw [hbk]
        exact pairwise_ids_update id (rejectUpd reason) (fun y => rfl) _ hdist
      · intro b1' hb1' b2' hb2' hneid hhall hl1 hl2 ho1 ho2
        rw [hbk] at hb1' hb2'
        obtain ⟨b1, hb1, he1⟩ := mem_update hb1'
        obtain ⟨b2, hb2, he2⟩ := mem_update hb2'
        by_cases h1 : b1.id = id
        · rw [if_pos h1] at he1
          rw [he1] at hl1
          simp [rejectUpd, Status.isLive] at hl1
        · rw [if_neg h1] at he1
          by_cases h2 : b2.id = id
          · rw [if_pos h2] at he2
            rw [he2] at hl2
            simp [rejectUpd, Status.isLive] at hl2
          · rw [if_neg h2] at he2
            subst he1
            subst he2
            exact hsafe b1' hb1 b2' hb2 hneid hhall hl1 hl2 ho1 ho2

/-- The empty store satisfies the invariant. -/
lemma storeInv_empty : StoreInv emptyDB := by
  refine ⟨?_, ?_, ?_⟩
  · intro b hb; cases hb
  · exact List.Pairwise.nil
  · intro b1 hb1; cases hb1

/-- C1 counterexample: after submitting a Student booking, an Institutional
override of it, and a second Student override (whose canonical conflict is
the Institutional booking), all three are pending on the same hall with
pairwise overlapping windows, and the first and third are linked by no
override reference — the spec's invariant fails in a reachable state. -/
theorem c1_claim_counterexample :
    (runOps threeWayTrace).bookings.map Booking.status =
      [Status.pending, Status.pending, Status.pending] ∧
    (runOps threeWayTrace).bookings.map Booking.overriddenBooking =
      [none, some 0, some 1] ∧
    overlapClaimHolds (runOps threeWayTrace).bookings = false := by
  decide

/-- C1 (amended): in every store reachable by any sequence of submissions,
approvals and rejections, any two distinct live (pending or approved)
bookings on the same hall with overlapping windows include at least one
whose conflict flag is set — the code prevents overlaps among
non-conflict-flagged bookings only. -/
theorem c1_live_overlap_invariant : ∀ ops : List Op, SafeOverlap (runOps ops) := by
  have hall2 : ∀ (ops : List Op) (db : DB), StoreInv db →
      StoreInv (ops.foldl stepOp db) := by
    intro ops
    induction ops with
    | nil => intro db h; exact h
    | cons op rest ih =>
      intro db h
      exact ih (stepOp db op) (storeInv_preserved db op h)
  intro ops
  exact (hall2 ops emptyDB storeInv_empty).2.2

/-- Witness for C1 (amended): the invariant holds in the three-booking
override state. -/
theorem c1_live_overlap_invariant_witness : SafeOverlap (runOps threeWayTrace) :=
  c1_live_overlap_invariant threeWayTrace

/-! ## Claim C8: submission validation order -/

/-- C8 (amended): the validation checks of `createBooking` run fail-fast, in
order, each with its distinct result and without touching the store:
missing required fields, then unparseable date/time, then `end ≤ start`,
then `start` before the current time — all decided before any conflict
detection or booking creation (the result is the same for every store
contents).  No attendance/bounded-field range check exists. -/
theorem c8_validation_order (now : Int) (uid : Nat) (req : CreateRequest) (db : DB) :
    (hasMissingCreateField req = true →
      createBooking now uid req db = (.missingFields, db)) ∧
    (hasMissingCreateField req = false →
      (req.parsedStart = none ∨ req.parsedEnd = none) →
      createBooking now uid req db = (.invalidFormat, db)) ∧
    (∀ s e, hasMissingCreateField req = false →
      req.parsedStart = some s → req.parsedEnd = some e → e ≤ s →
      createBooking now uid req db = (.invalidWindow, db)) ∧
    (∀ s e, hasMissingCreateField req = false →
      req.parsedStart = some s → req.parsedEnd = some e → s < e → s < now →
      createBooking now uid req db = (.pastWindow, db)) := by
  refine ⟨?_, ?_, ?_, ?_⟩
  · intro h
    unfold createBooking
    rw [if_pos h]
  · intro h hpe
    unfold createBooking
    rw [if_neg (by simp [h])]
    rcases hpe with hps | hpe
    · simp [hps]
    · cases hps2 : req.parsedStart with
      | none => simp [hps2]
      | some s => simp [hps2, hpe]
  · intro s e h hps hpe hle
    unfold createBooking
    rw [if_neg (by simp [h])]
    simp only [hps, hpe]
    rw [if_pos hle]
  · intro s e h hps hpe hlt hnow
    unfold createBooking
    rw [if_neg (by simp [h])]
    simp only [hps, hpe]
    rw [if_neg (not_le.mpr hlt), if_pos hnow]

/-- Witness for C8 (amended): each validation failure at a concrete input. -/
theorem c8_validation_order_witness :
    createBooking 0 7 missingReq emptyDB = (.missingFields, emptyDB) ∧
    createBooking 0 7 badFormatReq emptyDB = (.invalidFormat, emptyDB) ∧
    createBooking 0 7 badWindowReq emptyDB = (.invalidWindow, emptyDB) ∧
    createBooking (100 * msPerDay) 7 (mkReq "Student" 0 false) emptyDB =
      (.pastWindow, emptyDB) :=
  ⟨(c8_validation_order 0 7 missingReq emptyDB).1 (by decide),
   (c8_validation_order 0 7 badFormatReq emptyDB).2.1 (by decide) (Or.inl rfl),
   (c8_validation_order 0 7 badWindowReq emptyDB).2.2.1 20 10 (by decide) rfl rfl
     (by decide),
   (c8_validation_order (100 * msPerDay) 7 (mkReq "Student" 0 false) emptyDB).2.2.2
     (10 * 86400000) (10 * 86400000 + 7200000) (by decide) rfl rfl (by decide)
     (by decide)⟩

/-- C8 counterexample: the code performs no range validation on
`expectedAttendance` — a request with attendance −100 is accepted and a
pending booking is created, where the claim requires an OutOfRange error
before any creation. -/
theorem c8_out_of_range_counterexample :
    (createBooking 0 7 (mkReq "Student" (-100) false) emptyDB).1.isCreatedB = true ∧
    (createBooking 0 7 (mkReq "Student" (-100) false) emptyDB).2.bookings.map
      (fun b => (b.expectedAttendance, b.status)) = [(-100, Status.pending)] := by
  decide
